import Mathlib

/-!
Verification of the airtable-server repository: a shallow embedding of its
agent-dispatch and parameter-extraction pipeline, with theorems settling the
frozen claims about it.

Sources embedded here:
- src/server.ts: request handling and agent dispatch.
- src/agents/query-agent.ts: QueryAgent, including its private extractJSON.
- the CreateAgent source: CreateAgent.canHandle and CreateAgent.process.
- src/airtable-schema.ts: fetchBaseTables, resolveTableName and
  extractTableFromMessage.

Modelling conventions:
- JavaScript strings are modelled as Lean strings and, where character-level
  work is needed, as lists of characters. JS toLowerCase is modelled by
  mapping Char.toLower over the characters, which agrees with JS on ASCII.
- JSON.parse is modelled by jsonParse below, a strict JSON parser returning
  Option Js: none models a thrown SyntaxError. Numbers are modelled as exact
  rationals. Duplicate object keys overwrite, as in JS. A \u escape is
  decoded directly to the code point, without surrogate-pair recombination.
- Thrown exceptions are modelled as Option or Except values; a try/catch
  block becomes a match on them. Network and store effects are modelled as
  explicit inputs describing what the remote side returned, and the calls a
  handler issues are recorded in an explicit effect trace in its result.
-/

namespace AirtableServer

/-- A JSON-representable JavaScript value, as produced by JSON.parse. -/
inductive Js where
  | null
  | bool (b : Bool)
  | num (q : Rat)
  | str (s : String)
  | arr (elems : List Js)
  | obj (members : List (String × Js))

mutual

/-- Decidable equality on Js, written by hand because deriving does not
handle the nested inductive. -/
def jsDecEq : (a b : Js) → Decidable (a = b)
  | .null, .null => isTrue rfl
  | .null, .bool _ => isFalse (fun h => nomatch h)
  | .null, .num _ => isFalse (fun h => nomatch h)
  | .null, .str _ => isFalse (fun h => nomatch h)
  | .null, .arr _ => isFalse (fun h => nomatch h)
  | .null, .obj _ => isFalse (fun h => nomatch h)
  | .bool _, .null => isFalse (fun h => nomatch h)
  | .bool a, .bool b =>
    if h : a = b then isTrue (by rw [h]) else
      isFalse (by intro hh; injection hh with h2; exact h h2)
  | .bool _, .num _ => isFalse (fun h => nomatch h)
  | .bool _, .str _ => isFalse (fun h => nomatch h)
  | .bool _, .arr _ => isFalse (fun h => nomatch h)
  | .bool _, .obj _ => isFalse (fun h => nomatch h)
  | .num _, .null => isFalse (fun h => nomatch h)
  | .num _, .bool _ => isFalse (fun h => nomatch h)
  | .num a, .num b =>
    if h : a = b then isTrue (by rw [h]) else
      isFalse (by intro hh; injection hh with h2; exact h h2)
  | .num _, .str _ => isFalse (fun h => nomatch h)
  | .num _, .arr _ => isFalse (fun h => nomatch h)
  | .num _, .obj _ => isFalse (fun h => nomatch h)
  | .str _, .null => isFalse (fun h => nomatch h)
  | .str _, .bool _ => isFalse (fun h => nomatch h)
  | .str _, .num _ => isFalse (fun h => nomatch h)
  | .str a, .str b =>
    if h : a = b then isTrue (by rw [h]) else
      isFalse (by intro hh; injection hh with h2; exact h h2)
  | .str _, .arr _ => isFalse (fun h => nomatch h)
  | .str _, .obj _ => isFalse (fun h => nomatch h)
  | .arr _, .null => isFalse (fun h => nomatch h)
  | .arr _, .bool _ => isFalse (fun h => nomatch h)
  | .arr _, .num _ => isFalse (fun h => nomatch h)
  | .arr _, .str _ => isFalse (fun h => nomatch h)
  | .arr xs, .arr ys =>
    match jsDecEqList xs ys with
    | isTrue h => isTrue (by rw [h])
    | isFalse h => isFalse (by intro hh; injection hh with h2; exact h h2)
  | .arr _, .obj _ => isFalse (fun h => nomatch h)
  | .obj _, .null => isFalse (fun h => nomatch h)
  | .obj _, .bool _ => isFalse (fun h => nomatch h)
  | .obj _, .num _ => isFalse (fun h => nomatch h)
  | .obj _, .str _ => isFalse (fun h => nomatch h)
  | .obj _, .arr _ => isFalse (fun h => nomatch h)
  | .obj xs, .obj ys =>
    match jsDecEqMembers xs ys with
    | isTrue h => isTrue (by rw [h])
    | isFalse h => isFalse (by intro hh; injection hh with h2; exact h h2)

/-- Decidable equality on lists of Js values. -/
def jsDecEqList : (a b : List Js) → Decidable (a = b)
  | [], [] => isTrue rfl
  | [], _ :: _ => isFalse (fun h => nomatch h)
  | _ :: _, [] => isFalse (fun h => nomatch h)
  | x :: xs, y :: ys =>
    match jsDecEq x y with
    | isFalse h1 => isFalse (by intro hh; injection hh with ha hb; exact h1 ha)
    | isTrue h1 =>
      match jsDecEqList xs ys with
      | isTrue h2 => isTrue (by rw [h1, h2])
      | isFalse h2 => isFalse (by intro hh; injection hh with ha hb; exact h2 hb)

/-- Decidable equality on object member lists. -/
def jsDecEqMembers : (a b : List (String × Js)) → Decidable (a = b)
  | [], [] => isTrue rfl
  | [], _ :: _ => isFalse (fun h => nomatch h)
  | _ :: _, [] => isFalse (fun h => nomatch h)
  | (k1, v1) :: xs, (k2, v2) :: ys =>
    if hk : k1 = k2 then
      match jsDecEq v1 v2 with
      | isFalse h1 =>
        isFalse (by
          intro hh
          injection hh with ha hb
          exact h1 (congrArg Prod.snd ha))
      | isTrue h1 =>
        match jsDecEqMembers xs ys with
        | isTrue h2 => isTrue (by rw [hk, h1, h2])
        | isFalse h2 => isFalse (by intro hh; injection hh with ha hb; exact h2 hb)
    else
      isFalse (by
        intro hh
        injection hh with ha hb
        exact hk (congrArg Prod.fst ha))

end

instance : DecidableEq Js := jsDecEq

/-- JavaScript truthiness of a JSON-representable value: null, false, 0 and
the empty string are falsy; every array and object is truthy. -/
def jsTruthy : Js → Bool
  | .null => false
  | .bool b => b
  | .num q => if q = 0 then false else true
  | .str s => if s = "" then false else true
  | .arr _ => true
  | .obj _ => true

/-- First-match lookup in an object member list. Because jsonParse resolves
duplicate keys by overwriting at parse time, first match equals JS lookup. -/
def memberLookup : List (String × Js) → String → Option Js
  | [], _ => none
  | (k, v) :: rest, key => if k = key then some v else memberLookup rest key

/-- JS property access v.key for the non-index keys used by this code:
defined members on objects, undefined (none) on everything else that does
not throw. Access on null throws in JS and is handled at each call site. -/
def jsGet (v : Js) (key : String) : Option Js :=
  match v with
  | .obj members => memberLookup members key
  | _ => none

/-- Insert a member, overwriting an existing key in place as JS object
construction does during JSON.parse. -/
def objInsert : List (String × Js) → String → Js → List (String × Js)
  | [], key, v => [(key, v)]
  | (k, x) :: rest, key, v =>
    if k = key then (k, v) :: rest else (k, x) :: objInsert rest key v

/-- JSON whitespace: space, tab, line feed, carriage return. -/
def isJsonWs (c : Char) : Bool :=
  c = ' ' || c = '\t' || c = '\n' || c = '\r'

/-- Drop leading JSON whitespace. -/
def skipWs (cs : List Char) : List Char := cs.dropWhile isJsonWs

/-- Numeric value of a decimal digit character. -/
def digitVal (c : Char) : Nat := c.toNat - '0'.toNat

/-- Decimal value of a digit list. -/
def digitsToNat (ds : List Char) : Nat :=
  ds.foldl (fun a c => a * 10 + digitVal c) 0

/-- Parse one or more decimal digits; none if the input does not start
with a digit. -/
def parseDigits (cs : List Char) : Option (List Char × List Char) :=
  let span := cs.span Char.isDigit
  if span.1.isEmpty then none else some (span.1, span.2)

/-- Parse the optional fraction part: a dot followed by at least one
digit, or nothing. Returns the fraction digits and the remaining input. -/
def parseFrac (cs : List Char) : Option (List Char × List Char) :=
  match cs with
  | '.' :: afterDot =>
    match parseDigits afterDot with
    | some (ds, rest) => some (ds, rest)
    | none => none
  | _ => some ([], cs)

/-- Parse the optional exponent part: e or E, an optional sign, at least
one digit, or nothing. Returns the signed exponent and remaining input. -/
def parseExp (cs : List Char) : Option (Int × List Char) :=
  match cs with
  | 'e' :: afterE =>
    match afterE with
    | '+' :: ds =>
      match parseDigits ds with
      | some (digits, rest) => some ((digitsToNat digits : Int), rest)
      | none => none
    | '-' :: ds =>
      match parseDigits ds with
      | some (digits, rest) => some (-(digitsToNat digits : Int), rest)
      | none => none
    | ds =>
      match parseDigits ds with
      | some (digits, rest) => some ((digitsToNat digits : Int), rest)
      | none => none
  | 'E' :: afterE =>
    match afterE with
    | '+' :: ds =>
      match parseDigits ds with
      | some (digits, rest) => some ((digitsToNat digits : Int), rest)
      | none => none
    | '-' :: ds =>
      match parseDigits ds with
      | some (digits, rest) => some (-(digitsToNat digits : Int), rest)
      | none => none
    | ds =>
      match parseDigits ds with
      | some (digits, rest) => some ((digitsToNat digits : Int), rest)
      | none => none
  | _ => some (0, cs)

/-- Parse the strict JSON number grammar at the head of the input:
optional minus, an integer part with no leading zeros, an optional fraction
with at least one digit, an optional exponent with at least one digit.
Returns the exact rational value and the remaining input. -/
def parseNumber (cs : List Char) : Option (Rat × List Char) :=
  let signAndRest : Bool × List Char :=
    match cs with
    | '-' :: rest => (true, rest)
    | _ => (false, cs)
  let neg := signAndRest.1
  match signAndRest.2 with
  | [] => none
  | c :: rest =>
    if c = '0' ∨ ('1' ≤ c ∧ c ≤ '9') then
      let intDigits : List Char × List Char :=
        if c = '0' then ([c], rest)
        else
          let span := rest.span Char.isDigit
          (c :: span.1, span.2)
      match parseFrac intDigits.2 with
      | none => none
      | some (fracDigits, afterFrac) =>
        match parseExp afterFrac with
        | none => none
        | some (expVal, restAfter) =>
          let intVal : Nat := digitsToNat intDigits.1
          let fracLen := fracDigits.length
          let mantissaNat : Nat := intVal * 10 ^ fracLen + digitsToNat fracDigits
          let signedNum : Int :=
            if neg then -(mantissaNat : Int) else (mantissaNat : Int)
          let value : Rat :=
            if expVal < 0 then mkRat signedNum (10 ^ (fracLen + expVal.natAbs))
            else mkRat (signedNum * ((10 ^ expVal.natAbs : Nat) : Int)) (10 ^ fracLen)
          some (value, restAfter)
    else none

/-- Numeric value of a hexadecimal digit character, if it is one. -/
def hexVal (c : Char) : Option Nat :=
  if '0' ≤ c ∧ c ≤ '9' then some (c.toNat - '0'.toNat)
  else if 'a' ≤ c ∧ c ≤ 'f' then some (c.toNat - 'a'.toNat + 10)
  else if 'A' ≤ c ∧ c ≤ 'F' then some (c.toNat - 'A'.toNat + 10)
  else none

/-- Parse the body of a JSON string, the opening quote already consumed.
Accepts the standard escapes; rejects unescaped control characters, as
JSON.parse does. Fuel bounds recursion; each step consumes input, so fuel
equal to the input length plus one suffices. -/
def parseStringBody : Nat → List Char → List Char → Option (String × List Char)
  | 0, _, _ => none
  | _ + 1, _, [] => none
  | fuel + 1, acc, c :: rest =>
    if c = '"' then some (String.mk acc.reverse, rest)
    else if c = '\\' then
      match rest with
      | [] => none
      | e :: rest2 =>
        if e = '"' then parseStringBody fuel ('"' :: acc) rest2
        else if e = '\\' then parseStringBody fuel ('\\' :: acc) rest2
        else if e = '/' then parseStringBody fuel ('/' :: acc) rest2
        else if e = 'b' then parseStringBody fuel ('\x08' :: acc) rest2
        else if e = 'f' then parseStringBody fuel ('\x0c' :: acc) rest2
        else if e = 'n' then parseStringBody fuel ('\n' :: acc) rest2
        else if e = 'r' then parseStringBody fuel ('\r' :: acc) rest2
        else if e = 't' then parseStringBody fuel ('\t' :: acc) rest2
        else if e = 'u' then
          match rest2 with
          | h1 :: h2 :: h3 :: h4 :: rest3 =>
            match hexVal h1, hexVal h2, hexVal h3, hexVal h4 with
            | some a, some b, some cHex, some d =>
              parseStringBody fuel
                (Char.ofNat (((a * 16 + b) * 16 + cHex) * 16 + d) :: acc) rest3
            | _, _, _, _ => none
          | _ => none
        else none
    else if c.toNat < 32 then none
    else parseStringBody fuel (c :: acc) rest

mutual

/-- Parse a JSON value at the head of the input, skipping leading
whitespace. Fuel bounds the mutual recursion; at least one input character
is consumed per two fuel units, so the top-level fuel below suffices. -/
def parseValue : Nat → List Char → Option (Js × List Char)
  | 0, _ => none
  | fuel + 1, cs =>
    match skipWs cs with
    | [] => none
    | c :: rest =>
      if c = '{' then
        match skipWs rest with
        | '}' :: rest2 => some (Js.obj [], rest2)
        | _ => parseMembers fuel [] rest
      else if c = '[' then
        match skipWs rest with
        | ']' :: rest2 => some (Js.arr [], rest2)
        | _ => parseElements fuel [] rest
      else if c = '"' then
        match parseStringBody (rest.length + 1) [] rest with
        | some (s, rest2) => some (Js.str s, rest2)
        | none => none
      else if c = 't' then
        if List.isPrefixOf ['r', 'u', 'e'] rest then some (Js.bool true, rest.drop 3)
        else none
      else if c = 'f' then
        if List.isPrefixOf ['a', 'l', 's', 'e'] rest then some (Js.bool false, rest.drop 4)
        else none
      else if c = 'n' then
        if List.isPrefixOf ['u', 'l', 'l'] rest then some (Js.null, rest.drop 3)
        else none
      else
        match parseNumber (c :: rest) with
        | some (q, rest2) => some (Js.num q, rest2)
        | none => none

/-- Parse the remaining elements of a non-empty JSON array, the opening
bracket already consumed. -/
def parseElements : Nat → List Js → List Char → Option (Js × List Char)
  | 0, _, _ => none
  | fuel + 1, acc, cs =>
    match parseValue fuel cs with
    | none => none
    | some (v, rest) =>
      match skipWs rest with
      | ',' :: rest2 => parseElements fuel (v :: acc) rest2
      | ']' :: rest2 => some (Js.arr (v :: acc).reverse, rest2)
      | _ => none

/-- Parse the remaining members of a non-empty JSON object, the opening
brace already consumed. -/
def parseMembers : Nat → List (String × Js) → List Char → Option (Js × List Char)
  | 0, _, _ => none
  | fuel + 1, acc, cs =>
    match skipWs cs with
    | '"' :: rest =>
      match parseStringBody (rest.length + 1) [] rest with
      | none => none
      | some (key, rest2) =>
        match skipWs rest2 with
        | ':' :: rest3 =>
          match parseValue fuel rest3 with
          | none => none
          | some (v, rest4) =>
            match skipWs rest4 with
            | ',' :: rest5 => parseMembers fuel (objInsert acc key v) rest5
            | '}' :: rest5 => some (Js.obj (objInsert acc key v), rest5)
            | _ => none
        | _ => none
    | _ => none

end

/-- Model of JSON.parse: parse one JSON value, require only whitespace
after it; none models a thrown SyntaxError. -/
def jsonParse (s : String) : Option Js :=
  match parseValue (2 * s.data.length + 2) s.data with
  | some (v, rest) => if (skipWs rest).isEmpty then some v else none
  | none => none

/-!
Response Extractor: QueryAgent.extractJSON from src/agents/query-agent.ts.
-/

/-- The typed parameter object built by QueryAgent.extractJSON. The three
components hold JS values because the TypeScript function returns an
untyped object whose members are copied from parsed JSON. -/
structure QueryParameters where
  fields : Js
  filterByFormula : Js
  maxRecords : Js

instance : DecidableEq QueryParameters := fun a b =>
  match a, b with
  | ⟨f1, ff1, m1⟩, ⟨f2, ff2, m2⟩ =>
    if h1 : f1 = f2 then
      if h2 : ff1 = ff2 then
        if h3 : m1 = m2 then isTrue (by rw [h1, h2, h3])
        else isFalse (by intro hh; cases hh; exact h3 rfl)
      else isFalse (by intro hh; cases hh; exact h2 rfl)
    else isFalse (by intro hh; cases hh; exact h1 rfl)

/-- The full-default parameters returned on every failure path. -/
def defaultQueryParameters : QueryParameters :=
  ⟨Js.arr [], Js.str "", Js.num 10⟩

/-- The JS expression (v or d): the parsed member when present and truthy,
the default otherwise. none models an absent member (undefined). -/
def jsOrDefault (v : Option Js) (d : Js) : Js :=
  match v with
  | some x => if jsTruthy x then x else d
  | none => d

/-- The test (typeof parsed === object and parsed !== null): true exactly
for objects and arrays, since typeof null is object but null is excluded
by the second conjunct. -/
def isObjectNonNull : Js → Bool
  | Js.obj _ => true
  | Js.arr _ => true
  | _ => false

/-- Model of text.match over the greedy pattern matching a brace, any
characters, then a brace: the substring from the first opening brace to
the last closing brace, when the latter lies after the former; none when
the pattern has no match. -/
def bracedSub (cs : List Char) : Option (List Char) :=
  let fromBrace := cs.dropWhile (fun c => c != '{')
  if fromBrace.isEmpty then none
  else
    let upToClose := (fromBrace.reverse.dropWhile (fun c => c != '}')).reverse
    if upToClose.isEmpty then none else some upToClose

/-- QueryAgent.extractJSON: find a brace-delimited substring, parse it as
JSON, validate it is a non-null object, and copy the three recognized
members with falsy-triggered defaults; on any failure return the full
defaults. Total by construction: every path yields a QueryParameters. -/
def extractJSON (text : String) : QueryParameters :=
  match bracedSub text.data with
  | some jsonChars =>
    match jsonParse (String.mk jsonChars) with
    | some parsed =>
      if isObjectNonNull parsed then
        ⟨jsOrDefault (jsGet parsed "fields") (Js.arr []),
         jsOrDefault (jsGet parsed "filterByFormula") (Js.str ""),
         jsOrDefault (jsGet parsed "maxRecords") (Js.num 10)⟩
      else defaultQueryParameters
    | none => defaultQueryParameters
  | none => defaultQueryParameters

/-!
String utilities shared by the agents and the schema helpers.
-/

/-- JS toLowerCase, modelled characterwise; agrees with JS on ASCII. -/
def strLower (s : String) : List Char := s.data.map Char.toLower

/-- JS String.includes as a character-list infix test. -/
def containsSeq (needle : List Char) : List Char → Bool
  | [] => needle.isEmpty
  | c :: rest => List.isPrefixOf needle (c :: rest) || containsSeq needle rest

/-!
Schema helpers: fetchBaseTables, resolveTableName and
extractTableFromMessage from src/airtable-schema.ts.
-/

/-- A table identifier and display name pair, as the code casts the Meta
API response. -/
structure TableInfo where
  id : String
  name : String
deriving DecidableEq

/-- What the outbound schema fetch did, as seen by fetchBaseTables: the
fetch call rejected, the response had a non-OK status, the body was not
JSON, the body was JSON without a mappable tables array, or a well-typed
tables array was obtained. -/
inductive FetchOutcome where
  | networkError
  | httpError (statusText : String)
  | invalidJson
  | jsonNoTables
  | ok (tables : List TableInfo)
deriving DecidableEq

/-- Whether the fetch failed to produce a table array. -/
def fetchFailed : FetchOutcome → Bool
  | .ok _ => false
  | _ => true

/-- The body of the try block in fetchBaseTables: each abnormal outcome
throws, a well-typed body maps to the table list. -/
def fetchBaseTablesTry : FetchOutcome → Except String (List TableInfo)
  | .networkError => .error "TypeError: fetch failed"
  | .httpError statusText => .error ("Error: Failed to fetch schema: " ++ statusText)
  | .invalidJson => .error "SyntaxError: unexpected response body"
  | .jsonNoTables => .error "TypeError: data.tables.map is not a function"
  | .ok tables => .ok tables

/-- fetchBaseTables: the catch block logs and returns the empty list, so
every non-ok outcome collapses to no tables. -/
def fetchBaseTables (outcome : FetchOutcome) : List TableInfo :=
  match fetchBaseTablesTry outcome with
  | .ok tables => tables
  | .error _ => []

/-- resolveTableName: an argument starting with tbl is looked up by id in
a fresh fetch and replaced by its display name when found; any other
argument, or an id with no match, is returned unchanged. -/
def resolveTableName (outcome : FetchOutcome) (tableNameOrId : String) : String :=
  if List.isPrefixOf "tbl".data tableNameOrId.data then
    match (fetchBaseTables outcome).find? (fun t => decide (t.id = tableNameOrId)) with
    | some table => table.name
    | none => tableNameOrId
  else tableNameOrId

/-- The eight phrasing templates built from a lowercased table name, in
source order. -/
def tablePatterns (lowerTableName : List Char) : List (List Char) :=
  [ "in the ".data ++ lowerTableName ++ " table".data,
    "from the ".data ++ lowerTableName ++ " table".data,
    "in ".data ++ lowerTableName ++ " table".data,
    "from ".data ++ lowerTableName ++ " table".data,
    "in the ".data ++ lowerTableName,
    "from the ".data ++ lowerTableName,
    "in ".data ++ lowerTableName,
    "from ".data ++ lowerTableName ]

/-- The for loop in extractTableFromMessage: first table whose lowercased
name completes some template occurring in the lowercased message. -/
def extractTableLoop (lowerMessage : List Char) : List TableInfo → Option String
  | [] => none
  | table :: rest =>
    if (tablePatterns (strLower table.name)).any (fun p => containsSeq p lowerMessage) then
      some table.name
    else extractTableLoop lowerMessage rest

/-- extractTableFromMessage: fetch the tables, return none for an empty
list, otherwise scan the tables in listing order against the templates. -/
def extractTableFromMessage (outcome : FetchOutcome) (message : String) : Option String :=
  let tables := fetchBaseTables outcome
  if tables.length = 0 then none
  else extractTableLoop (strLower message) tables

/-!
Chat transport and dispatcher: the POST handler in src/server.ts.
-/

/-- Message roles accepted by the wire format in src/types.ts. -/
inductive Role where
  | system
  | user
  | assistant
deriving DecidableEq

/-- One role-tagged entry of the messages array. -/
structure ChatMessage where
  role : Role
  content : String
deriving DecidableEq

/-- The QueryAgent keyword list, in source order. -/
def queryKeywords : List String :=
  [ "find", "search", "show", "get", "list", "what", "who", "which", "give",
    "tell me", "details", "more information", "info on", "about", "describe" ]

/-- The CreateAgent keyword list, in source order. -/
def createKeywords : List String :=
  [ "create", "add", "new", "insert", "make" ]

/-- The shared canHandle shape: lowercase the message, test whether some
keyword occurs as a substring. -/
def hasAnyKeyword (keywords : List String) (message : String) : Bool :=
  keywords.any (fun keyword => containsSeq keyword.data (strLower message))

/-- The two agents registered in src/server.ts, identified by variant. The
ListTablesAgent exists in the repository but is not in the registration
list, so it is not part of the dispatch model. -/
inductive AgentId where
  | query
  | create
deriving DecidableEq

/-- canHandle of each registered agent. -/
def canHandle : AgentId → String → Bool
  | .query, message => hasAnyKeyword queryKeywords message
  | .create, message => hasAnyKeyword createKeywords message

/-- The registration order of the agents array in src/server.ts. -/
def registeredAgents : List AgentId := [AgentId.query, AgentId.create]

/-- The dispatch for loop: ask each agent in order, stop at the first
match. Returns the selected agent, if any, together with the list of
agents whose canHandle was actually invoked, in invocation order. -/
def dispatchLoop (message : String) : List AgentId → Option AgentId × List AgentId
  | [] => (none, [])
  | agent :: rest =>
    if canHandle agent message then (some agent, [agent])
    else
      let r := dispatchLoop message rest
      (r.1, agent :: r.2)

/-- The three ways the POST handler concludes. In the handled case the
selected agent is the one whose process produces the response body. -/
inductive ServerOutcome where
  | noUserMessage
  | noAgentMatched (message : String)
  | handled (agent : AgentId)
deriving DecidableEq

/-- The HTTP status attached to each conclusion by the handler. -/
def httpStatus : ServerOutcome → Nat
  | .noUserMessage => 400
  | .noAgentMatched _ => 400
  | .handled _ => 200

/-- The user-message selection in the handler:
chatRequest.messages.find on role equality, which yields the first
user-role entry in array order. -/
def findUserMessage (messages : List ChatMessage) : Option ChatMessage :=
  messages.find? (fun m => decide (m.role = Role.user))

/-- The text handed to the dispatch loop and then to the selected agent:
the content of the entry chosen by findUserMessage. -/
def dispatchedText (messages : List ChatMessage) : Option String :=
  (findUserMessage messages).map (fun m => m.content)

/-- The POST handler up to agent selection: reject when no user message is
found, otherwise dispatch the chosen text. Also returns the agents whose
canHandle ran; process runs only for the agent in the handled outcome. -/
def handleChat (messages : List ChatMessage) : ServerOutcome × List AgentId :=
  match findUserMessage messages with
  | none => (ServerOutcome.noUserMessage, [])
  | some userMessage =>
    match dispatchLoop userMessage.content registeredAgents with
    | (none, checked) => (ServerOutcome.noAgentMatched userMessage.content, checked)
    | (some agent, checked) => (ServerOutcome.handled agent, checked)

/-- Spec-side definition, following the specification text that the most
recent user-role entry drives dispatch: the content of the last user-role
entry in array order. Stated for comparison with dispatchedText. -/
def specLatestUserText (messages : List ChatMessage) : Option String :=
  (messages.reverse.find? (fun m => decide (m.role = Role.user))).map
    (fun m => m.content)

/-!
Model of JSON.stringify with indent 2, used in the record-summary prompt
and the create confirmation. Number formatting approximates the JS float printer:
integers agree with JS; non-integer rationals are printed as fractions.
Neither use is load-bearing for the claims.
-/

/-- A run of spaces for indentation. -/
def spaces (n : Nat) : String := String.mk (List.replicate n ' ')

/-- One hexadecimal digit character. -/
def hexDigit (n : Nat) : Char :=
  if n < 10 then Char.ofNat ('0'.toNat + n) else Char.ofNat ('a'.toNat + n - 10)

/-- Escape one character for a JSON string literal. -/
def escapeChar (c : Char) : List Char :=
  if c = '"' then ['\\', '"']
  else if c = '\\' then ['\\', '\\']
  else if c = '\n' then ['\\', 'n']
  else if c = '\r' then ['\\', 'r']
  else if c = '\t' then ['\\', 't']
  else if c = '\x08' then ['\\', 'b']
  else if c = '\x0c' then ['\\', 'f']
  else if c.toNat < 32 then
    ['\\', 'u', '0', '0', hexDigit (c.toNat / 16), hexDigit (c.toNat % 16)]
  else [c]

/-- Quote a string as a JSON string literal. -/
def quoteJson (s : String) : String :=
  String.mk ('"' :: (s.data.map escapeChar).flatten ++ ['"'])

/-- Print a rational: integers as in JS, other values as fractions. -/
def ratToString (q : Rat) : String :=
  if q.den = 1 then toString q.num else toString q.num ++ "/" ++ toString q.den

mutual

/-- Model of JSON.stringify with two-space indent, at the given current indent. -/
def jsStringify (ind : Nat) : Js → String
  | .null => "null"
  | .bool b => if b then "true" else "false"
  | .num q => ratToString q
  | .str s => quoteJson s
  | .arr [] => "[]"
  | .arr (x :: xs) =>
    "[\n" ++ jsStringifyElems (ind + 2) (x :: xs) ++ "\n" ++ spaces ind ++ "]"
  | .obj [] => "\x7b\x7d"
  | .obj (m :: ms) =>
    "\x7b\n" ++ jsStringifyMembers (ind + 2) (m :: ms) ++ "\n" ++ spaces ind ++ "\x7d"

/-- Stringify array elements, one per line, comma separated. -/
def jsStringifyElems (ind : Nat) : List Js → String
  | [] => ""
  | [x] => spaces ind ++ jsStringify ind x
  | x :: y :: rest =>
    spaces ind ++ jsStringify ind x ++ ",\n" ++ jsStringifyElems ind (y :: rest)

/-- Stringify object members, one per line, comma separated. -/
def jsStringifyMembers (ind : Nat) : List (String × Js) → String
  | [] => ""
  | [(k, v)] => spaces ind ++ quoteJson k ++ ": " ++ jsStringify ind v
  | (k, v) :: m :: rest =>
    spaces ind ++ quoteJson k ++ ": " ++ jsStringify ind v ++ ",\n" ++
      jsStringifyMembers ind (m :: rest)

end

/-!
Agent process pipelines: QueryAgent.process and CreateAgent.process.
Remote interactions are modelled by environment records carrying what each
remote call returned, and each pipeline reports the calls it issued as an
effect trace. Completion responses are carried as plain strings: the
claims under study concern requests whose completion calls succeed.
-/

/-- A record as returned by the store client: identifier plus fields. -/
structure AirtableRecord where
  id : String
  fields : Js

/-- One observable outbound call issued by an agent pipeline. -/
inductive Effect where
  | llmCall (prompt : String)
  | storeSelect (table : String) (maxRecords : Js) (filterByFormula : Js)
  | storeCreate (table : String) (fields : Option Js)

/-- Whether an effect is a language-model completion call. -/
def isLlmCall : Effect → Bool
  | .llmCall _ => true
  | _ => false

/-- Whether an effect is a store write. -/
def isStoreWrite : Effect → Bool
  | .storeCreate _ _ => true
  | _ => false

/-- The JS expression (detectedTable or this.tableName): the fallback when
the detected name is null or empty, hence falsy. -/
def jsStringOr (detected : Option String) (fallback : String) : String :=
  match detected with
  | some t => if t = "" then fallback else t
  | none => fallback

/-- The extraction prompt built by QueryAgent.process. -/
def queryExtractionPrompt (message : String) : String :=
  "Extract query parameters from: \"" ++ message ++ "\"\n\n" ++
  "Return ONLY this JSON (no other text):\n" ++
  "\x7b\n  \"fields\": [],\n  \"filterByFormula\": \"\",\n  \"maxRecords\": 10\n\x7d\n\n" ++
  "Notes:\n" ++
  "- If asking for details about a specific item (e.g., \"Human User Interface\"), use filterByFormula to search for it\n" ++
  "- Example: \"details on X\" -> \x7b\"filterByFormula\": \"SEARCH(\x27X\x27, \x7bName\x7d)\", \"maxRecords\": 1\x7d\n" ++
  "- For \"all records\", leave filterByFormula empty\n\n" ++
  "JSON:"

/-- The record-summary prompt built by QueryAgent.process. -/
def querySummaryPrompt (message : String) (records : List AirtableRecord) : String :=
  "Summarize these Airtable records in a friendly, conversational way:\n" ++
  jsStringify 0
    (Js.arr (records.map (fun r => Js.obj [("id", Js.str r.id), ("fields", r.fields)]))) ++
  "\n\nUser\x27s original question: \"" ++ message ++ "\""

/-- The fixed sentence returned when the store yields zero records. -/
def noRecordsText (friendlyTableName : String) : String :=
  "No records found in the \"" ++ friendlyTableName ++ "\" table matching your criteria."

/-- The catch-block text of QueryAgent.process. -/
def queryApology (e : String) : String :=
  "Sorry, I encountered an error while querying: " ++ e

/-- What the remote side returned during one QueryAgent.process run. The
two schema fetches are separate network calls, hence two outcomes. -/
structure QueryEnv where
  fetch1 : FetchOutcome
  fetch2 : FetchOutcome
  extractionResponse : String
  selectResult : Except String (List AirtableRecord)
  summaryResponse : String

/-- QueryAgent.process: locate the table, resolve its friendly name, ask
the completion gateway for parameters, extract them defensively, run the
paginated select, and either report zero records with the fixed sentence
or ask for a conversational summary. A store failure is caught and becomes
the apologetic string. Returns the response text and the effect trace. -/
def queryProcess (defaultTable : String) (env : QueryEnv) (message : String) :
    String × List Effect :=
  let detectedTable := extractTableFromMessage env.fetch1 message
  let targetTable := jsStringOr detectedTable defaultTable
  let friendlyTableName := resolveTableName env.fetch2 targetTable
  let prompt := queryExtractionPrompt message
  let queryParams := extractJSON env.extractionResponse
  let mr := jsOrDefault (some queryParams.maxRecords) (Js.num 10)
  let fbf := jsOrDefault (some queryParams.filterByFormula) (Js.str "")
  match env.selectResult with
  | .error e =>
    (queryApology e, [Effect.llmCall prompt, Effect.storeSelect targetTable mr fbf])
  | .ok records =>
    if records.length = 0 then
      (noRecordsText friendlyTableName,
       [Effect.llmCall prompt, Effect.storeSelect targetTable mr fbf])
    else
      (env.summaryResponse,
       [Effect.llmCall prompt, Effect.storeSelect targetTable mr fbf,
        Effect.llmCall (querySummaryPrompt message records)])

/-- The extraction prompt built by CreateAgent.process. -/
def createExtractionPrompt (message : String) : String :=
  "Given this user request: \"" ++ message ++ "\"\n\n" ++
  "Extract the field names and values to create a new Airtable record.\n" ++
  "Respond with ONLY a JSON object in this format:\n" ++
  "\x7b\n  \"fields\": \x7b\n    \"FieldName1\": \"value1\",\n    \"FieldName2\": \"value2\"\n  \x7d\n\x7d\n\n" ++
  "Example: \"Create a contact named John Smith with email john@example.com\"\n" ++
  "Response: \x7b\"fields\": \x7b\"Name\": \"John Smith\", \"Email\": \"john@example.com\"\x7d\x7d"

/-- The catch-block text of CreateAgent.process. -/
def createApology (e : String) : String :=
  "Sorry, I encountered an error while creating the record: " ++ e

/-- The confirmation text of CreateAgent.process on success. -/
def createSuccessText (targetTable : String) (record : AirtableRecord) : String :=
  "âœ… Successfully created record in \"" ++ targetTable ++ "\"!\n\nID: " ++
    record.id ++ "\nFields: " ++ jsStringify 0 record.fields

/-- What the remote side returned during one CreateAgent.process run.
thrownErrorText is the engine rendering of a thrown parse or property
error, used only when the completion text is unusable. -/
structure CreateEnv where
  fetch1 : FetchOutcome
  llmResponse : String
  thrownErrorText : String
  createResult : Except String (List AirtableRecord)

/-- CreateAgent.process: locate the table, ask the completion gateway for
the fields, parse the completion directly with JSON.parse (no defensive
extraction), issue the single-record create, and confirm. A parse failure,
a property access on a null parse result, or a store failure is caught and
becomes the apologetic string. Returns the response text and the effect
trace; the trace shows that no store write happens once parsing fails. -/
def createProcess (defaultTable : String) (env : CreateEnv) (message : String) :
    String × List Effect :=
  let detectedTable := extractTableFromMessage env.fetch1 message
  let targetTable := jsStringOr detectedTable defaultTable
  let prompt := createExtractionPrompt message
  match jsonParse env.llmResponse with
  | none =>
    (createApology env.thrownErrorText, [Effect.llmCall prompt])
  | some Js.null =>
    (createApology env.thrownErrorText, [Effect.llmCall prompt])
  | some recordData =>
    let fields := jsGet recordData "fields"
    match env.createResult with
    | .error e =>
      (createApology e, [Effect.llmCall prompt, Effect.storeCreate targetTable fields])
    | .ok created =>
      match created.head? with
      | none =>
        (createApology "Error: Failed to create record",
         [Effect.llmCall prompt, Effect.storeCreate targetTable fields])
      | some record =>
        (createSuccessText targetTable record,
         [Effect.llmCall prompt, Effect.storeCreate targetTable fields])

/-!
Shared helper lemmas.
-/

/-- dropWhile skips a whole prefix on which the predicate holds. -/
theorem dropWhile_append_all {α : Type} (p : α → Bool) (l r : List α)
    (h : l.all p = true) : (l ++ r).dropWhile p = r.dropWhile p := by
  induction l with
  | nil => rfl
  | cons a t ih =>
    simp only [List.all_cons, Bool.and_eq_true] at h
    simp [List.dropWhile_cons, h.1, ih h.2]

/-- jsOrDefault yields a truthy value whenever its default is truthy. -/
theorem jsOrDefault_truthy (v : Option Js) (d : Js) (hd : jsTruthy d = true) :
    jsTruthy (jsOrDefault v d) = true := by
  cases v with
  | none => exact hd
  | some x =>
    simp only [jsOrDefault]
    by_cases ht : jsTruthy x = true
    · rwa [if_pos ht]
    · rwa [if_neg ht]

/-- Every path through extractJSON yields a truthy maxRecords member. -/
theorem extractJSON_maxRecords_truthy (text : String) :
    jsTruthy (extractJSON text).maxRecords = true := by
  unfold extractJSON
  repeat' split
  all_goals first
    | exact jsOrDefault_truthy _ _ (by decide)
    | decide

/-- The extraction loop returns the first matching table in listing
order. -/
theorem extractTableLoop_eq_find (lm : List Char) (ts : List TableInfo) :
    extractTableLoop lm ts =
      (ts.find? (fun t =>
        (tablePatterns (strLower t.name)).any (fun p => containsSeq p lm))).map
        TableInfo.name := by
  induction ts with
  | nil => rfl
  | cons t rest ih =>
    cases hmatch : (tablePatterns (strLower t.name)).any (fun p => containsSeq p lm) with
    | true => simp [extractTableLoop, hmatch, List.find?_cons]
    | false => simp [extractTableLoop, hmatch, List.find?_cons, ih]

/-!
Claim theorems.
-/

/-- Claim C1, counterexample: a request holding two user entries, where
the dispatched text is the content of the first user entry, not of the
most recent one, refuting the claim as stated. -/
theorem dispatchedText_ne_latest_user_counterexample :
    1 < (List.countP (fun m => decide (m.role = Role.user))
      ([⟨Role.user, "A"⟩, ⟨Role.assistant, "x"⟩, ⟨Role.user, "B"⟩] :
        List ChatMessage)) ∧
    specLatestUserText
      [⟨Role.user, "A"⟩, ⟨Role.assistant, "x"⟩, ⟨Role.user, "B"⟩] = some "B" ∧
    dispatchedText
      [⟨Role.user, "A"⟩, ⟨Role.assistant, "x"⟩, ⟨Role.user, "B"⟩] = some "A" ∧
    dispatchedText
      [⟨Role.user, "A"⟩, ⟨Role.assistant, "x"⟩, ⟨Role.user, "B"⟩] ≠
      specLatestUserText
        [⟨Role.user, "A"⟩, ⟨Role.assistant, "x"⟩, ⟨Role.user, "B"⟩] := by
  decide

/-- Claim C1, amended: the text handed to the dispatch loop is the content
of the earliest user-role entry of the messages array, because the handler
uses a first-match find over the array. -/
theorem dispatchedText_eq_first_user (pre post : List ChatMessage)
    (u : ChatMessage) (hu : u.role = Role.user)
    (hpre : ∀ m ∈ pre, m.role ≠ Role.user) :
    dispatchedText (pre ++ u :: post) = some u.content := by
  induction pre with
  | nil => simp [dispatchedText, findUserMessage, List.find?_cons, hu]
  | cons a t ih =>
    have ha : (decide (a.role = Role.user)) = false := by
      simp [hpre a (List.mem_cons_self a t)]
    have ht : ∀ m ∈ t, m.role ≠ Role.user :=
      fun m hm => hpre m (List.mem_cons_of_mem a hm)
    have ihh := ih ht
    simp only [dispatchedText, findUserMessage, List.cons_append,
      List.find?_cons, ha] at ihh ⊢
    exact ihh

/-- Claim C1, witness for the amended statement at a concrete request. -/
theorem dispatchedText_eq_first_user_witness :
    dispatchedText
      ([⟨Role.assistant, "x"⟩] ++ ⟨Role.user, "B"⟩ :: [⟨Role.user, "C"⟩]) =
      some "B" :=
  dispatchedText_eq_first_user [⟨Role.assistant, "x"⟩] [⟨Role.user, "C"⟩]
    ⟨Role.user, "B"⟩ rfl (by decide)

/-- Claim C2: the Response Extractor is total by construction, and on
absence of a brace-delimited substring, or on a parse failure of that
substring, it returns exactly the full-default parameters; in particular
it does so on the plain sentence input. -/
theorem extractJSON_total_defaults :
    (∀ text : String, bracedSub text.data = none →
      extractJSON text = defaultQueryParameters) ∧
    (∀ (text : String) (cs : List Char), bracedSub text.data = some cs →
      jsonParse (String.mk cs) = none →
      extractJSON text = defaultQueryParameters) ∧
    extractJSON "I cannot help with that." = defaultQueryParameters := by
  refine ⟨?_, ?_, by decide⟩
  · intro text h
    simp [extractJSON, h]
  · intro text cs h1 h2
    simp [extractJSON, h1, h2]

/-- Claim C2, witness: the default path at concrete inputs. -/
theorem extractJSON_total_defaults_witness :
    extractJSON "no valid JSON here" = defaultQueryParameters :=
  extractJSON_total_defaults.1 "no valid JSON here" (by decide)

/-- Claim C3: for a message both agents claim, the dispatch loop selects
the first-registered agent, consults no later agent, and the handler runs
only that agent. -/
theorem dispatch_first_registered_wins (message : String)
    (hq : canHandle AgentId.query message = true)
    (_hc : canHandle AgentId.create message = true) :
    dispatchLoop message registeredAgents = (some AgentId.query, [AgentId.query]) ∧
    (∀ (messages : List ChatMessage) (um : ChatMessage),
      findUserMessage messages = some um → um.content = message →
      handleChat messages = (ServerOutcome.handled AgentId.query, [AgentId.query])) := by
  have hd : dispatchLoop message registeredAgents =
      (some AgentId.query, [AgentId.query]) := by
    simp [dispatchLoop, registeredAgents, hq]
  refine ⟨hd, ?_⟩
  intro messages um hfind hcontent
  simp only [handleChat, hfind, hcontent, hd]

/-- Claim C3, witness at the ambiguous message from the specification. -/
theorem dispatch_first_registered_wins_witness :
    dispatchLoop "show me how to create a task" registeredAgents =
      (some AgentId.query, [AgentId.query]) :=
  (dispatch_first_registered_wins "show me how to create a task"
    (by decide) (by decide)).1

/-- Claim C4: a request with no user-role entry concludes with the
no-user-message outcome carrying status 400, and no agent canHandle or
process is invoked (the invocation trace is empty; process runs only in
the handled outcome). -/
theorem no_user_message_rejected (messages : List ChatMessage)
    (h : ∀ m ∈ messages, m.role ≠ Role.user) :
    handleChat messages = (ServerOutcome.noUserMessage, []) ∧
    httpStatus (handleChat messages).1 = 400 := by
  have hfind : findUserMessage messages = none := by
    apply List.find?_eq_none.mpr
    intro m hm
    simp [h m hm]
  constructor
  · rw [handleChat, hfind]
  · rw [handleChat, hfind]
    rfl

/-- Claim C4, witness at a concrete request without a user entry. -/
theorem no_user_message_rejected_witness :
    handleChat [⟨Role.system, "s"⟩, ⟨Role.assistant, "a"⟩] =
      (ServerOutcome.noUserMessage, []) ∧
    httpStatus (handleChat [⟨Role.system, "s"⟩, ⟨Role.assistant, "a"⟩]).1 = 400 :=
  no_user_message_rejected [⟨Role.system, "s"⟩, ⟨Role.assistant, "a"⟩] (by decide)

/-- Claim C5: the brace recovery takes the greedy span from the first
opening brace to the last closing brace, and the worked example from the
specification extracts exactly the stated parameters. -/
theorem extractJSON_greedy_brace_recovery :
    (∀ pre mid post : List Char,
      pre.all (fun c => c != '{') = true →
      post.all (fun c => c != '}') = true →
      bracedSub (pre ++ ('{' :: (mid ++ ('}' :: post)))) =
        some ('{' :: (mid ++ ['}']))) ∧
    extractJSON
      "Sure! \x7b\"filterByFormula\": \"X\", \"maxRecords\": 3\x7d Hope that helps." =
      ⟨Js.arr [], Js.str "X", Js.num 3⟩ := by
  refine ⟨?_, by decide⟩
  intro pre mid post hpre hpost
  have h1 : (pre ++ ('{' :: (mid ++ ('}' :: post)))).dropWhile
      (fun c => c != '{') = '{' :: (mid ++ ('}' :: post)) := by
    rw [dropWhile_append_all (fun c => c != '{') pre
      ('{' :: (mid ++ ('}' :: post))) hpre]
    simp [List.dropWhile_cons]
  have hrev : ('{' :: (mid ++ ('}' :: post))).reverse =
      post.reverse ++ ('}' :: (mid.reverse ++ ['{'])) := by
    simp
  have hpostrev : post.reverse.all (fun c => c != '}') = true := by
    simpa using hpost
  have h2 : (('{' :: (mid ++ ('}' :: post))).reverse.dropWhile
      (fun c => c != '}')).reverse = '{' :: (mid ++ ['}']) := by
    rw [hrev, dropWhile_append_all (fun c => c != '}') post.reverse
      ('}' :: (mid.reverse ++ ['{'])) hpostrev]
    simp [List.dropWhile_cons]
  simp only [bracedSub, h1, h2]
  simp

/-- Claim C5, witness for the greedy span at a concrete decomposition. -/
theorem extractJSON_greedy_brace_recovery_witness :
    bracedSub (['a'] ++ ('{' :: (['b'] ++ ('}' :: ['c'])))) =
      some ('{' :: (['b'] ++ ['}'])) :=
  extractJSON_greedy_brace_recovery.1 ['a'] ['b'] ['c'] (by decide) (by decide)

/-- Claim C6: when the completion text fails to parse as JSON, the create
pipeline returns the apologetic string embedding the thrown error and
issues no store write at all (its trace is the single completion call). -/
theorem createProcess_parse_failure_no_write (defaultTable message : String)
    (env : CreateEnv) (h : jsonParse env.llmResponse = none) :
    (createProcess defaultTable env message).1 =
      createApology env.thrownErrorText ∧
    (createProcess defaultTable env message).2 =
      [Effect.llmCall (createExtractionPrompt message)] ∧
    (createProcess defaultTable env message).2.countP isStoreWrite = 0 := by
  refine ⟨?_, ?_, ?_⟩ <;> simp [createProcess, h, isStoreWrite]

/-- Claim C6, witness at a concrete unparseable completion. -/
theorem createProcess_parse_failure_no_write_witness :
    (createProcess "Tasks"
      ⟨FetchOutcome.networkError, "I could not parse that",
        "SyntaxError: Unexpected token", Except.ok []⟩ "create a task").1 =
      createApology "SyntaxError: Unexpected token" ∧
    (createProcess "Tasks"
      ⟨FetchOutcome.networkError, "I could not parse that",
        "SyntaxError: Unexpected token", Except.ok []⟩ "create a task").2 =
      [Effect.llmCall (createExtractionPrompt "create a task")] ∧
    (createProcess "Tasks"
      ⟨FetchOutcome.networkError, "I could not parse that",
        "SyntaxError: Unexpected token", Except.ok []⟩ "create a task").2.countP
      isStoreWrite = 0 :=
  createProcess_parse_failure_no_write "Tasks" "create a task"
    ⟨FetchOutcome.networkError, "I could not parse that",
      "SyntaxError: Unexpected token", Except.ok []⟩ (by decide)

/-- Claim C7: when the paginated select yields zero records, the query
pipeline returns the fixed sentence naming the resolved friendly table
name, and its trace holds exactly one completion call, never a second
summary call. -/
theorem queryProcess_zero_records_single_llm (defaultTable message : String)
    (env : QueryEnv) (h : env.selectResult = Except.ok []) :
    (queryProcess defaultTable env message).1 =
      noRecordsText (resolveTableName env.fetch2
        (jsStringOr (extractTableFromMessage env.fetch1 message) defaultTable)) ∧
    (queryProcess defaultTable env message).2.countP isLlmCall = 1 := by
  refine ⟨?_, ?_⟩ <;> simp [queryProcess, h, isLlmCall]

/-- Claim C7, witness at a concrete zero-record environment. -/
theorem queryProcess_zero_records_single_llm_witness :
    (queryProcess "Tasks"
      ⟨FetchOutcome.networkError, FetchOutcome.networkError, "bad",
        Except.ok [], "sum"⟩ "find stuff").1 = noRecordsText "Tasks" ∧
    (queryProcess "Tasks"
      ⟨FetchOutcome.networkError, FetchOutcome.networkError, "bad",
        Except.ok [], "sum"⟩ "find stuff").2.countP isLlmCall = 1 := by
  have h := queryProcess_zero_records_single_llm "Tasks" "find stuff"
    ⟨FetchOutcome.networkError, FetchOutcome.networkError, "bad",
      Except.ok [], "sum"⟩ rfl
  exact ⟨h.1.trans (by decide), h.2⟩

/-- Claim C8: the table locator returns the first table in listing order
whose lowercased name, substituted into one of the eight templates, occurs
in the lowercased message; none on an empty table list; and the worked
example locates Tasks. -/
theorem extractTableFromMessage_first_match :
    (∀ (tables : List TableInfo) (message : String),
      extractTableFromMessage (FetchOutcome.ok tables) message =
        (tables.find? (fun t =>
          (tablePatterns (strLower t.name)).any
            (fun p => containsSeq p (strLower message)))).map TableInfo.name) ∧
    (∀ message : String,
      extractTableFromMessage (FetchOutcome.ok []) message = none) ∧
    extractTableFromMessage
      (FetchOutcome.ok [⟨"tblA", "Tasks"⟩, ⟨"tblB", "Projects"⟩])
      "find all records in the Tasks table" = some "Tasks" := by
  refine ⟨?_, fun _ => rfl, by decide⟩
  intro tables message
  cases tables with
  | nil => rfl
  | cons t rest =>
    simp [extractTableFromMessage, fetchBaseTables, fetchBaseTablesTry,
      extractTableLoop_eq_find]

/-- Claim C9: a falsy parsed member is replaced by its default, so an
explicit zero maxRecords becomes 10, an explicit null fields becomes the
empty list, and the returned maxRecords is never the number zero. -/
theorem extractJSON_falsy_defaults :
    (extractJSON "\x7b\"maxRecords\": 0\x7d").maxRecords = Js.num 10 ∧
    (extractJSON "\x7b\"fields\": null\x7d").fields = Js.arr [] ∧
    ∀ (text : String) (q : Rat),
      (extractJSON text).maxRecords = Js.num q → q ≠ 0 := by
  refine ⟨by decide, by decide, ?_⟩
  intro text q h
  have ht := extractJSON_maxRecords_truthy text
  rw [h] at ht
  intro hq
  simp [jsTruthy, hq] at ht

/-- Claim C9, witness: a truthy concrete maxRecords flows through and is
nonzero. -/
theorem extractJSON_falsy_defaults_witness : (3 : Rat) ≠ 0 :=
  extractJSON_falsy_defaults.2.2 "\x7b\"maxRecords\": 3\x7d" 3 (by decide)

/-- Claim C10: every failing schema fetch collapses to the empty table
list, so the locator returns no match rather than failing; and the
resolver returns its argument unchanged when it lacks the tbl prefix or
names an identifier absent from the fetched list. -/
theorem fetch_total_resolve_passthrough :
    (∀ o : FetchOutcome, fetchFailed o = true → fetchBaseTables o = []) ∧
    (∀ (o : FetchOutcome) (a : String),
      List.isPrefixOf "tbl".data a.data = false → resolveTableName o a = a) ∧
    (∀ (o : FetchOutcome) (a : String),
      (fetchBaseTables o).all (fun t => !(decide (t.id = a))) = true →
      resolveTableName o a = a) ∧
    (∀ (o : FetchOutcome) (m : String), fetchFailed o = true →
      extractTableFromMessage o m = none) := by
  refine ⟨?_, ?_, ?_, ?_⟩
  · intro o h
    cases o <;> first | rfl | cases h
  · intro o a h
    rw [resolveTableName, if_neg (by simp [h])]
  · intro o a h
    have hfind : (fetchBaseTables o).find?
        (fun t => decide (t.id = a)) = none := by
      apply List.find?_eq_none.mpr
      intro t ht
      have := List.all_eq_true.mp h t ht
      simpa using this
    rw [resolveTableName]
    by_cases hp : List.isPrefixOf "tbl".data a.data = true
    · rw [if_pos hp, hfind]
    · rw [if_neg hp]
  · intro o m h
    cases o <;> first | rfl | cases h

/-- Claim C10, witness at concrete outcomes and names. -/
theorem fetch_total_resolve_passthrough_witness :
    fetchBaseTables FetchOutcome.networkError = [] ∧
    resolveTableName FetchOutcome.invalidJson "Projects" = "Projects" ∧
    resolveTableName (FetchOutcome.ok [⟨"tblA", "Tasks"⟩]) "tblZ" = "tblZ" ∧
    extractTableFromMessage (FetchOutcome.httpError "Unauthorized") "find x" = none :=
  ⟨fetch_total_resolve_passthrough.1 FetchOutcome.networkError (by decide),
   fetch_total_resolve_passthrough.2.1 FetchOutcome.invalidJson "Projects" (by decide),
   fetch_total_resolve_passthrough.2.2.1 (FetchOutcome.ok [⟨"tblA", "Tasks"⟩])
     "tblZ" (by decide),
   fetch_total_resolve_passthrough.2.2.2 (FetchOutcome.httpError "Unauthorized")
     "find x" (by decide)⟩


end AirtableServer
